import Mathlib

set_option maxRecDepth 4000

/- Verification model of the observability core of openCSAT
(`src/app/server.js`: `Logger`, `HealthMonitor`, `MetricsCollector`, and the
`/health` endpoint aggregation in the express route file).  JavaScript `Map`s
are modelled as insertion-ordered association lists, `Date.now()` readings as
natural numbers supplied by the environment, and promise outcomes as
`Except` values. -/

deriving instance DecidableEq for Except

namespace OpenCSAT

/-- Lookup in an insertion-ordered association list; models `Map.get` /
`Object` property lookup with `===` key equality. -/
def assocGet {κ α : Type} [DecidableEq κ] : List (κ × α) → κ → Option α
  | [], _ => none
  | p :: rest, k => if p.1 = k then some p.2 else assocGet rest k

/-- Update-or-append; models `Map.set`: an existing key keeps its original
position (insertion order of the first `set` per key), a new key is appended. -/
def assocSet {κ α : Type} [DecidableEq κ] : List (κ × α) → κ → α → List (κ × α)
  | [], k, v => [(k, v)]
  | p :: rest, k, v => if p.1 = k then (k, v) :: rest else p :: assocSet rest k v

/-- Removal; models `Map.delete` / `fs.unlinkSync` on the file table. -/
def assocErase {κ α : Type} [DecidableEq κ] : List (κ × α) → κ → List (κ × α)
  | [], _ => []
  | p :: rest, k => if p.1 = k then assocErase rest k else p :: assocErase rest k

/-- Status of a single health check result (`'healthy'` / `'unhealthy'`). -/
inductive HStatus where
  | healthy
  | unhealthy
deriving DecidableEq, Repr

/-- Registered check configuration (`HealthMonitor.addCheck`, server.js 426-434),
together with the environment of the one modelled run: `outcome` is the settled
value of `Promise.race([checkConfig.fn(), timeoutPromise])` (a timeout loss is
an `.error` whose message is `'Health check timeout'`), and `duration` /
`timestamp` are the clock readings the run would observe. -/
structure CheckConfig where
  outcome : Except String Int
  timeout : Nat
  critical : Bool
  duration : Nat
  timestamp : Nat
deriving DecidableEq, Repr

/-- One health check result object (server.js 451-457 / 466-473).  Optional
fields model JavaScript object fields that are present only on one branch:
the healthy branch carries `details` but no `critical` field, the unhealthy
branch carries `error` and `critical` but no `details`. -/
structure CheckResult where
  name : String
  status : HStatus
  duration : Nat
  timestamp : Nat
  details : Option Int
  error : Option String
  critical : Option Bool
deriving DecidableEq, Repr

/-- Registers or overwrites a named check (`HealthMonitor.addCheck`). -/
def addCheck (checks : List (String × CheckConfig)) (name : String)
    (cfg : CheckConfig) : List (String × CheckConfig) :=
  assocSet checks name cfg

/-- Runs a single check (`HealthMonitor.runCheck`, server.js 436-482). -/
def runCheck (name : String) (cfg : CheckConfig) : CheckResult :=
  match cfg.outcome with
  | .ok result =>
      { name := name, status := .healthy, duration := cfg.duration,
        timestamp := cfg.timestamp, details := some result, error := none,
        critical := none }
  | .error e =>
      { name := name, status := .unhealthy, duration := cfg.duration,
        timestamp := cfg.timestamp, details := none, error := some e,
        critical := some cfg.critical }

/-- The aggregate report built by `HealthMonitor.runAllChecks`
(server.js 495-502).  `status` is a string because `getStatus` can also
produce `'unknown'`. -/
structure HealthReport where
  status : String
  timestamp : Nat
  checks : List CheckResult
  criticalFailures : Nat
  totalChecks : Nat
  healthyChecks : Nat
deriving DecidableEq, Repr

/-- The predicate of `results.filter(r => r.status === 'unhealthy' && r.critical)`
(server.js 493); an absent `critical` field is falsy. -/
def isCriticalFailure (r : CheckResult) : Bool :=
  decide (r.status = .unhealthy) && r.critical.getD false

/-- Executes every registered check (server.js 484-518).  The `for … of`
loop awaits one check at a time in `Map` iteration order; the pure model
realises that sequential, registration-ordered traversal as `List.map`. -/
def runAllChecks (checks : List (String × CheckConfig)) (now : Nat) :
    HealthReport :=
  let results := checks.map (fun p => runCheck p.1 p.2)
  let overallStatus :=
    if results.all (fun r => decide (r.status = .healthy)) then ("healthy")
    else ("unhealthy")
  let criticalFailures := results.filter isCriticalFailure
  { status := overallStatus,
    timestamp := now,
    checks := results,
    criticalFailures := criticalFailures.length,
    totalChecks := results.length,
    healthyChecks := (results.filter (fun r => decide (r.status = .healthy))).length }

/-- History update performed at the end of `runAllChecks` (server.js 505-508):
`unshift` then truncate to `maxHistorySize`. -/
def updateHistory (history : List HealthReport) (report : HealthReport)
    (maxHistorySize : Nat) : List HealthReport :=
  let h := report :: history
  if h.length > maxHistorySize then h.take maxHistorySize else h

/-- `HealthMonitor.getStatus` (server.js 549-558): the newest report, or a
synthetic `'unknown'` report before any cycle has completed. -/
def getStatus (history : List HealthReport) (now : Nat) : HealthReport :=
  match history with
  | r :: _ => r
  | [] =>
      { status := ("unknown"), timestamp := now, checks := [],
        criticalFailures := 0, totalChecks := 0, healthyChecks := 0 }

/-- The `/health` endpoint status aggregation (`src/unnamed/part_001`,
lines 367-372): `unhealthy` if the latest report is unhealthy or has any
critical failures, else `degraded` if some check is unhealthy, else `ok`. -/
def healthEndpointStatus (healthStatus : HealthReport) : String :=
  if healthStatus.status = ("unhealthy") ∨ healthStatus.criticalFailures > 0 then
    ("unhealthy")
  else if healthStatus.healthyChecks < healthStatus.totalChecks then
    ("degraded")
  else ("ok")

/-- Lexicographic comparison of character sequences by code point: the model
of `a.localeCompare(b) <= 0`, which on the ASCII label keys used by this
program is plain code-unit order. -/
def strLeb : List Char → List Char → Bool
  | [], _ => true
  | _ :: _, [] => false
  | a :: as, b :: bs =>
      if a.toNat < b.toNat then true
      else if b.toNat < a.toNat then false
      else strLeb as bs

/-- Comparison used by `getMetricKey`'s label sort
(`.sort(([a], [b]) => a.localeCompare(b))`, server.js 613): entries are
ordered by key. -/
def labelLe (p q : String × String) : Prop :=
  strLeb p.1.data q.1.data = true

instance : DecidableRel labelLe := fun p q =>
  inferInstanceAs (Decidable (strLeb p.1.data q.1.data = true))

instance : IsTotal (String × String) labelLe where
  total := by
    have key : ∀ x y : List Char, strLeb x y = true ∨ strLeb y x = true := by
      intro x
      induction x with
      | nil => intro y; left; simp [strLeb]
      | cons a as ih =>
          intro y
          cases y with
          | nil => right; simp [strLeb]
          | cons b bs =>
              by_cases h1 : a.toNat < b.toNat
              · left; simp [strLeb, h1]
              · by_cases h2 : b.toNat < a.toNat
                · right; simp [strLeb, h2]
                · rcases ih bs with h | h
                  · left; simp [strLeb, h1, h2, h]
                  · right; simp [strLeb, h1, h2, h]
    exact fun p q => key p.1.data q.1.data

instance : IsTrans (String × String) labelLe where
  trans := by
    have key : ∀ x y z : List Char,
        strLeb x y = true → strLeb y z = true → strLeb x z = true := by
      intro x
      induction x with
      | nil => intro y z _ _; simp [strLeb]
      | cons a as ih =>
          intro y z hpq hqr
          cases y with
          | nil => simp [strLeb] at hpq
          | cons b bs =>
              cases z with
              | nil => simp [strLeb] at hqr
              | cons c cs =>
                  by_cases hab1 : a.toNat < b.toNat
                  · by_cases hbc1 : b.toNat < c.toNat
                    · simp [strLeb, show a.toNat < c.toNat from hab1.trans hbc1]
                    · by_cases hbc2 : c.toNat < b.toNat
                      · simp [strLeb, hbc1, hbc2] at hqr
                      · have : a.toNat < c.toNat := by omega
                        simp [strLeb, this]
                  · by_cases hab2 : b.toNat < a.toNat
                    · simp [strLeb, hab1, hab2] at hpq
                    · by_cases hbc1 : b.toNat < c.toNat
                      · have : a.toNat < c.toNat := by omega
                        simp [strLeb, this]
                      · by_cases hbc2 : c.toNat < b.toNat
                        · simp [strLeb, hbc1, hbc2] at hqr
                        · have hac1 : ¬ a.toNat < c.toNat := by omega
                          have hac2 : ¬ c.toNat < a.toNat := by omega
                          simp only [strLeb, if_neg hab1, if_neg hab2] at hpq
                          simp only [strLeb, if_neg hbc1, if_neg hbc2] at hqr
                          simp only [strLeb, if_neg hac1, if_neg hac2]
                          exact ih bs cs hpq hqr
    exact fun p q r hpq hqr => key p.1.data q.1.data r.1.data hpq hqr

/-- Renders one label pair as `k="v"` (server.js 614). -/
def renderLabel (p : String × String) : String :=
  p.1 ++ ("=\"") ++ p.2 ++ ("\"")

/-- `MetricsCollector.getMetricKey` (server.js 611-618): sort the label
entries by key, render `k="v"` joined by commas, and wrap in braces after the
metric name; a metric without labels is keyed by its bare name.  JavaScript's
`Array.prototype.sort` is modelled by stable insertion sort. -/
def getMetricKey (name : String) (labels : List (String × String)) : String :=
  let sorted := labels.insertionSort labelLe
  let labelStr := String.intercalate (",") (sorted.map renderLabel)
  if labelStr = ("") then name
  else name ++ ("\x7b") ++ labelStr ++ ("\x7d")

/-- One stored metric series, mirroring the dynamic JavaScript object
(server.js 575, 583-588, 593-598).  A counter or gauge object has no
`values` field and a histogram object has no `value` field; the unused field
is carried at its default (`0` / `[]`) and never read on well-typed usage. -/
structure Metric where
  type : String
  value : Int
  values : List Int
  labels : List (String × String)
  lastUpdated : Nat
deriving DecidableEq, Repr

/-- The metrics `Map`, keyed by canonical series key. -/
abbrev MetricsMap := List (String × Metric)

/-- `MetricsCollector.counter` (server.js 573-579). -/
def counter (m : MetricsMap) (name : String) (value : Int)
    (labels : List (String × String)) (now : Nat) : MetricsMap :=
  let key := getMetricKey name labels
  let existing := (assocGet m key).getD
    { type := ("counter"), value := 0, values := [], labels := labels,
      lastUpdated := now }
  assocSet m key
    { existing with value := existing.value + value, lastUpdated := now }

/-- `MetricsCollector.gauge` (server.js 581-589): last write wins. -/
def gauge (m : MetricsMap) (name : String) (value : Int)
    (labels : List (String × String)) (now : Nat) : MetricsMap :=
  let key := getMetricKey name labels
  assocSet m key
    { type := ("gauge"), value := value, values := [], labels := labels,
      lastUpdated := now }

/-- The push-then-truncate step of `MetricsCollector.histogram`
(server.js 600-606): append, and if the list exceeds 1000 entries keep the
most recent 1000 (`values.slice(-1000)`). -/
def pushCap (cur : List Int) (v : Int) : List Int :=
  let vs := cur ++ [v]
  if vs.length > 1000 then vs.drop (vs.length - 1000) else vs

/-- The most recent 1000 entries of a list (its final length-1000 suffix, the
whole list when shorter): the sliding window the histogram cap maintains. -/
def windowCap (l : List Int) : List Int :=
  l.drop (l.length - 1000)

/-- `MetricsCollector.histogram` (server.js 591-609). -/
def histogram (m : MetricsMap) (name : String) (value : Int)
    (labels : List (String × String)) (now : Nat) : MetricsMap :=
  let key := getMetricKey name labels
  let existing := (assocGet m key).getD
    { type := ("histogram"), value := 0, values := [], labels := labels,
      lastUpdated := now }
  assocSet m key
    { existing with values := pushCap existing.values value, lastUpdated := now }

/-- Ascending sort of a histogram's stored values
(`metric.values.sort((a, b) => a - b)`, server.js 625). -/
def sortedValues (vs : List Int) : List Int :=
  vs.insertionSort (· ≤ ·)

/-- The histogram statistics block computed on read (server.js 626-636). -/
structure HistStats where
  count : Nat
  sum : Int
  min : Int
  max : Int
  p50 : Int
  p95 : Int
  p99 : Int
deriving DecidableEq, Repr

/-- Statistics of one histogram series as computed by
`MetricsCollector.getMetrics` (server.js 625-636): the value list is sorted
ascending and indexed by nearest rank.  `Math.floor(count * q)` on doubles
equals the exact rational floor `count * (100 q) / 100` for every count the
1000-entry window allows. -/
def histStats (vs : List Int) : HistStats :=
  let values := sortedValues vs
  let count := values.length
  { count := count,
    sum := values.foldl (· + ·) 0,
    min := if count > 0 then values.headD 0 else 0,
    max := if count > 0 then values.getD (count - 1) 0 else 0,
    p50 := if count > 0 then values.getD (count * 50 / 100) 0 else 0,
    p95 := if count > 0 then values.getD (count * 95 / 100) 0 else 0,
    p99 := if count > 0 then values.getD (count * 99 / 100) 0 else 0 }

/-- One entry of the object returned by `getMetrics` (server.js 628-647). -/
inductive Snapshot where
  | hist (stats : HistStats) (labels : List (String × String)) (lastUpdated : Nat)
  | plain (type : String) (value : Int) (labels : List (String × String))
      (lastUpdated : Nat)
deriving DecidableEq, Repr

/-- The read-out of one stored metric (server.js 624-647). -/
def snapshotOf (metric : Metric) : Snapshot :=
  if metric.type = ("histogram") then
    .hist (histStats metric.values) metric.labels metric.lastUpdated
  else
    .plain metric.type metric.value metric.labels metric.lastUpdated

/-- The state mutation hidden in `getMetrics`: `Array.prototype.sort` sorts
`metric.values` in place (server.js 625), so after the call every stored
histogram series holds its sorted value list. -/
def sortInPlace (metric : Metric) : Metric :=
  if metric.type = ("histogram") then
    { metric with values := sortedValues metric.values }
  else metric

/-- `MetricsCollector.getMetrics` (server.js 620-651): returns the snapshot
object together with the post-call collector state (the in-place sort of each
histogram series is the only mutation). -/
def getMetrics (m : MetricsMap) : List (String × Snapshot) × MetricsMap :=
  (m.map (fun p => (p.1, snapshotOf p.2)),
   m.map (fun p => (p.1, sortInPlace p.2)))

/-- Folds a sequence of `histogram` observations for one series (repeated
`histogram(name, v, labels)` calls with a fixed clock reading). -/
def histMany (m : MetricsMap) (name : String)
    (labels : List (String × String)) (now : Nat) (vs : List Int) : MetricsMap :=
  vs.foldl (fun acc v => histogram acc name v labels now) m

/-- Logger configuration (server.js 285-298). -/
structure LoggerConfig where
  level : String
  enableConsole : Bool
  enableFile : Bool
  maxFileSize : Nat
  maxFiles : Nat
deriving DecidableEq, Repr

/-- The severity table `this.levels` (server.js 293-298). -/
def levels : List (String × Nat) :=
  [(("error"), 0), (("warn"), 1), (("info"), 2), (("debug"), 3)]

/-- `Logger.shouldLog` (server.js 305-307): `levels[level] <= levels[this.level]`;
a lookup of an unknown level yields `undefined`, whose comparisons are false. -/
def shouldLog (level configuredLevel : String) : Bool :=
  match assocGet levels level, assocGet levels configuredLevel with
  | some a, some b => decide (a ≤ b)
  | _, _ => false

/-- The serialized log line appended to the file
(`JSON.stringify(logEntry) + '\n'`, server.js 334).  The JSON rendering of
the record is abstracted to an injective string encoding; only the line's
length (its byte size) is observable to the rotation logic. -/
def formatLine (level message : String) : String :=
  level ++ (":") ++ message ++ ("\n")

/-- The per-level file family on disk: the live `level.log` plus the numbered
archives `level.log.N`.  `none` models a file that does not exist. -/
structure LogFs where
  live : Option (List String)
  archives : List (Nat × List String)
deriving DecidableEq, Repr

/-- Size in bytes of a file's content (the appended lines). -/
def fileSize (content : List String) : Nat :=
  (content.map String.length).sum

/-- Lookup of archive `filename.i`. -/
def archGet (fs : LogFs) (i : Nat) : Option (List String) :=
  assocGet fs.archives i

/-- Fault model for the file-system primitives: a `true` flag makes the
corresponding `fs.*Sync` call throw. -/
structure FsOracle where
  failStat : Bool
  failAppend : Bool
  failRename : Bool
  failUnlink : Bool
deriving DecidableEq, Repr

/-- The oracle under which every file-system call succeeds. -/
def allOk : FsOracle :=
  { failStat := false, failAppend := false, failRename := false,
    failUnlink := false }

/-- A file-system action's result: the state after the action together with
the thrown error, if the action threw. -/
abbrev FsStep := LogFs × Option String

/-- Sequencing of two throwing actions: a thrown error short-circuits,
keeping the state reached so far. -/
def seqStep (r : FsStep) (f : LogFs → FsStep) : FsStep :=
  match r with
  | (fs, some e) => (fs, some e)
  | (fs, none) => f fs

/-- `fs.statSync(filename).size` (server.js 338), called only when the live
file exists. -/
def statLiveSize (o : FsOracle) (fs : LogFs) : Except String Nat :=
  if o.failStat then .error ("stat error")
  else .ok (fileSize (fs.live.getD []))

/-- `fs.appendFileSync(filename, logLine)` (server.js 344): creates the live
file when missing, else appends. -/
def appendLive (o : FsOracle) (fs : LogFs) (line : String) : FsStep :=
  if o.failAppend then (fs, some ("append error"))
  else ({ fs with live := some (fs.live.getD [] ++ [line]) }, none)

/-- One iteration of the rotation shift loop (server.js 353-364): skip a
missing `filename.i`; delete it when `i = maxFiles - 1`; otherwise rename it
to `filename.(i+1)` (renaming removes the source and overwrites the target). -/
def rotateStep (o : FsOracle) (maxFiles i : Nat) (fs : LogFs) : FsStep :=
  match archGet fs i with
  | none => (fs, none)
  | some c =>
      if i = maxFiles - 1 then
        if o.failUnlink then (fs, some ("unlink error"))
        else ({ fs with archives := assocErase fs.archives i }, none)
      else
        if o.failRename then (fs, some ("rename error"))
        else ({ fs with archives := assocSet (assocErase fs.archives i) (i + 1) c },
              none)

/-- The rotation shift loop, iterating `i` from `maxFiles - 1` down to 1
(server.js 353): `rotateLoop o maxFiles i fs` processes indices `i, …, 1`. -/
def rotateLoop (o : FsOracle) (maxFiles : Nat) : Nat → LogFs → FsStep
  | 0, fs => (fs, none)
  | i + 1, fs => seqStep (rotateStep o maxFiles (i + 1) fs) (rotateLoop o maxFiles i)

/-- `fs.renameSync(filename, filename + '.1')` (server.js 367): the live file
becomes archive 1; renaming a missing source throws. -/
def renameLiveToArch1 (o : FsOracle) (fs : LogFs) : FsStep :=
  match fs.live with
  | none => (fs, some ("rename error"))
  | some c =>
      if o.failRename then (fs, some ("rename error"))
      else ({ live := none, archives := assocSet fs.archives 1 c }, none)

/-- `Logger.rotateLogFile` (server.js 350-371): the shift loop followed by
renaming the live file to `.1`, all inside a `try`/`catch` that reports any
thrown error to the console and swallows it. -/
def rotateLogFile (o : FsOracle) (maxFiles : Nat) (fs : LogFs) :
    LogFs × List String :=
  match seqStep (rotateLoop o maxFiles (maxFiles - 1) fs) (renameLiveToArch1 o) with
  | (fs', none) => (fs', [])
  | (fs', some e) => (fs', [("Failed to rotate log file: ") ++ e])

/-- The body of `Logger.writeToFile`'s `try` block (server.js 332-344): the
inner value is the state reached and the console lines produced by a caught
rotation failure; the outer `Option` is an error thrown by `statSync` or
`appendFileSync`, which this body propagates. -/
def writeBody (o : FsOracle) (maxFileSize maxFiles : Nat) (fs : LogFs)
    (line : String) : (LogFs × List String) × Option String :=
  match fs.live with
  | some _ =>
      match statLiveSize o fs with
      | .error e => ((fs, []), some e)
      | .ok sz =>
          let rotated :=
            if sz > maxFileSize then rotateLogFile o maxFiles fs else (fs, [])
          match appendLive o rotated.1 line with
          | (fs2, none) => ((fs2, rotated.2), none)
          | (fs2, some e) => ((fs2, rotated.2), some e)
  | none =>
      match appendLive o fs line with
      | (fs2, none) => ((fs2, []), none)
      | (fs2, some e) => ((fs2, []), some e)

/-- `Logger.writeToFile` (server.js 329-348): no-op without file logging;
otherwise the `try` body with its `catch` reporting a thrown error to the
console, never re-raising. -/
def writeToFile (o : FsOracle) (enableFile : Bool) (maxFileSize maxFiles : Nat)
    (fs : LogFs) (line : String) : LogFs × List String :=
  if enableFile = false then (fs, [])
  else
    match writeBody o maxFileSize maxFiles fs line with
    | ((fs', msgs), none) => (fs', msgs)
    | ((fs', msgs), some e) =>
        (fs', msgs ++ [("Failed to write to log file: ") ++ e])

/-- The colorized console output of `Logger.log` (server.js 378-394),
modelled by the message text. -/
def consoleLines (enableConsole : Bool) (message : String) : List String :=
  if enableConsole then [message] else []

/-- `Logger.log` (server.js 373-397): level filtering, console sink, then the
file sink.  The return value pairs the file-system state with everything sent
to the console; no error component exists because `writeToFile` catches. -/
def log (o : FsOracle) (cfg : LoggerConfig) (fs : LogFs)
    (level message : String) : LogFs × List String :=
  if shouldLog level cfg.level then
    let fileOut := writeToFile o cfg.enableFile cfg.maxFileSize cfg.maxFiles fs
      (formatLine level message)
    (fileOut.1, consoleLines cfg.enableConsole message ++ fileOut.2)
  else (fs, [])

/-- `Logger.error` (server.js 399-401). -/
def logError (o : FsOracle) (cfg : LoggerConfig) (fs : LogFs)
    (message : String) : LogFs × List String :=
  log o cfg fs ("error") message

/-- `Logger.warn` (server.js 403-405). -/
def logWarn (o : FsOracle) (cfg : LoggerConfig) (fs : LogFs)
    (message : String) : LogFs × List String :=
  log o cfg fs ("warn") message

/-- `Logger.info` (server.js 407-409). -/
def logInfo (o : FsOracle) (cfg : LoggerConfig) (fs : LogFs)
    (message : String) : LogFs × List String :=
  log o cfg fs ("info") message

/-- `Logger.debug` (server.js 411-413). -/
def logDebug (o : FsOracle) (cfg : LoggerConfig) (fs : LogFs)
    (message : String) : LogFs × List String :=
  log o cfg fs ("debug") message

/-- A single registered check that fails non-critically: the concrete input
for the `/health` aggregation analysis. -/
def c3Checks : List (String × CheckConfig) :=
  [(("database"),
    { outcome := .error ("connection refused"), timeout := 1000,
      critical := false, duration := 12, timestamp := 0 })]

/-- Observation sequence filling one histogram series to exactly the
1000-entry cap, with its two smallest values observed first. -/
def c6Obs : List Int := 2 :: 1 :: List.replicate 998 3

/-- Collector state after observing `c6Obs`, then calling `getMetrics` (which
sorts the stored series in place), then observing one more value `0`. -/
def c6State : MetricsMap :=
  histogram ((getMetrics (histMany [] ("h") [] 0 c6Obs)).2) ("h") 0 [] 0

/-- The value list the collector retains for the series after `c6State`. -/
def c6Stored : List Int :=
  ((assocGet c6State ("h")).getD
    { type := ("histogram"), value := 0, values := [], labels := [],
      lastUpdated := 0 }).values

/-- The 1000 most recently observed values of the full observation sequence
`c6Obs ++ [0]`, in observation order (the claimed sliding window). -/
def c6Window : List Int :=
  (c6Obs ++ [0]).drop ((c6Obs ++ [0]).length - 1000)

/-- One fault-free file write with `maxFileSize = 100` and the default
`maxFiles = 5`, as in the rotation scenario. -/
def w8 (fs : LogFs) (line : String) : LogFs :=
  (writeToFile allOk true 100 5 fs line).1

/-- A 60-byte log record filled with the given character. -/
def rec8 (ch : Char) : String := String.mk (List.replicate 60 ch)

/-- File state after five 60-byte writes against a 100-byte threshold: the
size check trips before the third and the fifth write. -/
def c8Final : LogFs :=
  w8 (w8 (w8 (w8 (w8 { live := none, archives := [] } (rec8 ('a')))
    (rec8 ('b'))) (rec8 ('c'))) (rec8 ('d'))) (rec8 ('e'))

/-- A full file family under `maxFiles = 5`: the live file is over the
100-byte threshold and archives 1 through 4 all exist, so the next rotation
must take the `unlinkSync` branch on archive 4. -/
def c8FullFs : LogFs :=
  { live := some [rec8 ('e'), rec8 ('f')],
    archives := [(1, [rec8 ('d')]), (2, [rec8 ('c')]), (3, [rec8 ('b')]),
                 (4, [rec8 ('a')])] }

/-- File state after one over-threshold write against the full family: the
oldest archive (`.4`, holding the `'a'` record) is deleted — no `.5` is ever
created — and every younger archive shifts up one slot. -/
def c8AfterFull : LogFs :=
  (writeToFile allOk true 100 5 c8FullFs (rec8 ('g'))).1

/-- A small file family with `maxFiles = 3` whose top archive (`.2`) exists,
so the next rotation exercises the delete branch. -/
def c8WitnessFs : LogFs :=
  { live := some [("r1")], archives := [(1, [("a1")]), (2, [("a2")])] }

/-- A one-series collector whose histogram holds `[2, 1]`. -/
def c10A : MetricsMap :=
  [(("h"), { type := ("histogram"), value := 0, values := [2, 1], labels := [],
             lastUpdated := 0 })]

/-- A one-series collector whose histogram holds `[1, 2]`: same multiset as
`c10A`, different observation order. -/
def c10B : MetricsMap :=
  [(("h"), { type := ("histogram"), value := 0, values := [1, 2], labels := [],
             lastUpdated := 0 })]

/-- Setting a key makes it readable. -/
theorem assocGet_assocSet_self {κ α : Type} [DecidableEq κ]
    (m : List (κ × α)) (k : κ) (v : α) : assocGet (assocSet m k v) k = some v := by
  induction m with
  | nil => simp [assocGet, assocSet]
  | cons p rest ih =>
      by_cases h : p.1 = k <;> simp [assocGet, assocSet, h, ih]

/-- Setting a key leaves other keys unchanged. -/
theorem assocGet_assocSet_ne {κ α : Type} [DecidableEq κ]
    (m : List (κ × α)) (k k' : κ) (v : α) (hne : k' ≠ k) :
    assocGet (assocSet m k v) k' = assocGet m k' := by
  have hkk' : ¬ (k = k') := fun h => hne h.symm
  induction m with
  | nil => simp [assocGet, assocSet, hkk']
  | cons p rest ih =>
      by_cases h : p.1 = k
      · simp [assocGet, assocSet, h, hkk']
      · simp [assocGet, assocSet, h, ih]

/-- Reading through an erase: the erased key is gone, others unchanged. -/
theorem assocGet_assocErase {κ α : Type} [DecidableEq κ]
    (m : List (κ × α)) (k k' : κ) :
    assocGet (assocErase m k) k' = if k' = k then none else assocGet m k' := by
  induction m with
  | nil => simp [assocGet, assocErase]
  | cons p rest ih =>
      by_cases hk : k' = k
      · subst hk
        by_cases h : p.1 = k'
        · simp [assocErase, h, ih]
        · simp [assocErase, assocGet, h, ih]
      · by_cases h : p.1 = k
        · have h' : ¬ (p.1 = k') := by rw [h]; exact fun hh => hk hh.symm
          have hkk : ¬ (k = k') := fun hh => hk hh.symm
          simp [assocErase, assocGet, h, h', ih, hk, hkk]
        · by_cases h' : p.1 = k'
          · simp [assocErase, assocGet, h, h', ih, hk]
          · simp [assocErase, assocGet, h, h', ih, hk]

/-- The key list after `Map.set`: unchanged for a registered key, appended
for a fresh one — registration order is the order of first insertion. -/
theorem assocSet_keys {κ α : Type} [DecidableEq κ]
    (m : List (κ × α)) (k : κ) (v : α) :
    (assocSet m k v).map Prod.fst =
      if (assocGet m k).isSome then m.map Prod.fst
      else m.map Prod.fst ++ [k] := by
  induction m with
  | nil => simp [assocGet, assocSet]
  | cons p rest ih =>
      by_cases h : p.1 = k
      · simp [assocGet, assocSet, h]
      · simp only [assocSet, if_neg h, List.map_cons, assocGet, ih]
        split <;> simp

/-- Reading the key at the head of an association list. -/
theorem assocGet_cons_self {κ α : Type} [DecidableEq κ]
    (k : κ) (v : α) (rest : List (κ × α)) :
    assocGet ((k, v) :: rest) k = some v := by
  simp [assocGet]

/-- Reading a value-mapped association list. -/
theorem assocGet_map {κ α β : Type} [DecidableEq κ]
    (m : List (κ × α)) (f : α → β) (k : κ) :
    assocGet (m.map (fun p => (p.1, f p.2))) k = (assocGet m k).map f := by
  induction m with
  | nil => simp [assocGet]
  | cons p rest ih =>
      by_cases h : p.1 = k <;> simp [assocGet, h, ih]

/-- Strings are determined by their character data. -/
theorem string_data_ext {a b : String} (h : a.data = b.data) : a = b := by
  cases a
  cases b
  simp only at h
  rw [h]

/-- The label comparator is antisymmetric. -/
theorem strLeb_antisymm : ∀ x y : List Char,
    strLeb x y = true → strLeb y x = true → x = y := by
  intro x
  induction x with
  | nil =>
      intro y h1 h2
      cases y with
      | nil => rfl
      | cons b bs => simp [strLeb] at h2
  | cons a as ih =>
      intro y h1 h2
      cases y with
      | nil => simp [strLeb] at h1
      | cons b bs =>
          by_cases hab : a.toNat < b.toNat
          · have hba : ¬ b.toNat < a.toNat := by omega
            simp [strLeb, hab, hba] at h2
          · by_cases hba : b.toNat < a.toNat
            · simp [strLeb, hab, hba] at h1
            · have hn : a.toNat = b.toNat := by omega
              have hc : a = b := Char.eq_of_val_eq (UInt32.toNat.inj hn)
              subst hc
              simp only [strLeb, if_neg hab, if_neg hba] at h1 h2
              rw [ih bs h1 h2]

/-- Two sorted lists that are permutations of one another are equal, provided
the order relation is antisymmetric on the elements actually present. -/
theorem sorted_perm_eq_on {α : Type} {r : α → α → Prop} {l₁ l₂ : List α}
    (hp : l₁.Perm l₂) (hs₁ : l₁.Sorted r) (hs₂ : l₂.Sorted r)
    (ha : ∀ a ∈ l₁, ∀ b ∈ l₁, r a b → r b a → a = b) : l₁ = l₂ := by
  induction l₁ generalizing l₂ with
  | nil => exact hp.nil_eq
  | cons a t₁ ih =>
      cases l₂ with
      | nil => exact absurd hp.symm.nil_eq (by simp)
      | cons b t₂ =>
          have hb₁ : b ∈ a :: t₁ := hp.symm.subset (List.mem_cons_self _ _)
          have hab : a = b := by
            rcases List.mem_cons.1 hb₁ with h | hb
            · exact h.symm
            · rcases List.mem_cons.1 (hp.subset (List.mem_cons_self a t₁)) with h | ha'
              · exact h
              · exact ha a (List.mem_cons_self _ _) b hb₁
                  (List.rel_of_sorted_cons hs₁ b hb)
                  (List.rel_of_sorted_cons hs₂ a ha')
          subst hab
          have hp' : t₁.Perm t₂ := (List.perm_cons a).1 hp
          rw [ih hp' hs₁.of_cons hs₂.of_cons
            (fun x hx y hy hxy hyx =>
              ha x (List.mem_cons_of_mem _ hx) y (List.mem_cons_of_mem _ hy) hxy hyx)]

/-- The result of `runCheck` is named after the check that produced it. -/
theorem runCheck_name (name : String) (cfg : CheckConfig) :
    (runCheck name cfg).name = name := by
  cases h : cfg.outcome <;> simp [runCheck, h]

/-- The filter predicate of `criticalFailures` agrees with "unhealthy and
marked critical": an absent `critical` field and a `false` one are both
falsy. -/
theorem isCriticalFailure_eq (r : CheckResult) :
    isCriticalFailure r =
      decide (r.status = .unhealthy ∧ r.critical = some true) := by
  rcases hc : r.critical with _ | b
  · cases hs : r.status <;> simp [isCriticalFailure, hs, hc]
  · cases b <;> cases hs : r.status <;> simp [isCriticalFailure, hs, hc]

/-- C1.  For every set of N registered health checks, `runAllChecks()`
returns a report whose `checks` list has exactly N results, each result named
for the check that produced it, in registration order — where registration
order is the order of the first `addCheck` per name: `addCheck` keeps the key
order unchanged when the name is already registered and appends otherwise.
The sequential one-at-a-time await of the `for … of` loop is realised by the
model's left-to-right traversal of the registration list. -/
theorem C1_runAllChecks_registration_order
    (checks : List (String × CheckConfig)) (now : Nat)
    (name : String) (cfg : CheckConfig) :
    (runAllChecks checks now).checks.map CheckResult.name = checks.map Prod.fst
    ∧ (runAllChecks checks now).checks.length = checks.length
    ∧ (runAllChecks checks now).totalChecks = checks.length
    ∧ (addCheck checks name cfg).map Prod.fst =
        (if (assocGet checks name).isSome then checks.map Prod.fst
         else checks.map Prod.fst ++ [name]) := by
  refine ⟨?_, ?_, ?_, ?_⟩
  · show (checks.map (fun p => runCheck p.1 p.2)).map CheckResult.name = _
    rw [List.map_map]
    exact List.map_congr_left (fun p _ => runCheck_name p.1 p.2)
  · simp [runAllChecks]
  · simp [runAllChecks]
  · exact assocSet_keys checks name cfg

/-- C2.  The report's `status` is `healthy` iff every individual result is
healthy, and `criticalFailures` counts the results that are both unhealthy
and marked critical; consequently an unhealthy critical check forces the
overall status to `unhealthy` regardless of the other checks. -/
theorem C2_overall_status_and_critical_failures
    (checks : List (String × CheckConfig)) (now : Nat) :
    ((runAllChecks checks now).status = ("healthy") ↔
      ∀ r ∈ (runAllChecks checks now).checks, r.status = .healthy)
    ∧ (runAllChecks checks now).criticalFailures =
        (runAllChecks checks now).checks.countP
          (fun r => decide (r.status = .unhealthy ∧ r.critical = some true))
    ∧ (∀ r ∈ (runAllChecks checks now).checks,
        r.status = .unhealthy → r.critical = some true →
        (runAllChecks checks now).status = ("unhealthy")) := by
  refine ⟨?_, ?_, ?_⟩
  · show (if (checks.map (fun p => runCheck p.1 p.2)).all
        (fun r => decide (r.status = .healthy)) then ("healthy") else ("unhealthy")) = ("healthy") ↔
      ∀ r ∈ (runAllChecks checks now).checks, r.status = .healthy
    split_ifs with h
    · exact iff_of_true rfl
        (fun r hr => of_decide_eq_true (List.all_eq_true.1 h r hr))
    · refine iff_of_false (by decide) ?_
      intro hall
      exact h (List.all_eq_true.2 (fun r hr => decide_eq_true (hall r hr)))
  · show ((checks.map (fun p => runCheck p.1 p.2)).filter isCriticalFailure).length = _
    rw [List.countP_eq_length_filter,
      List.filter_congr (fun r _ => isCriticalFailure_eq r)]
    rfl
  · intro r hr hstat hcrit
    show (if (checks.map (fun p => runCheck p.1 p.2)).all
        (fun r => decide (r.status = .healthy)) then ("healthy") else ("unhealthy")) = ("unhealthy")
    split_ifs with h
    · have := (List.all_eq_true.1 h) r hr
      rw [hstat] at this
      simp at this
    · rfl

/-- C2 witness: in a run with one healthy check and one unhealthy critical
check, the third conjunct forces the overall status to `unhealthy`. -/
theorem C2_overall_status_witness :
    (runAllChecks
      [(("ok-check"),
        { outcome := .ok 1, timeout := 500, critical := false, duration := 1,
          timestamp := 0 }),
       (("db"),
        { outcome := .error ("down"), timeout := 500, critical := true,
          duration := 2, timestamp := 0 })] 9).status = ("unhealthy") :=
  (C2_overall_status_and_critical_failures
      [(("ok-check"),
        { outcome := .ok 1, timeout := 500, critical := false, duration := 1,
          timestamp := 0 }),
       (("db"),
        { outcome := .error ("down"), timeout := 500, critical := true,
          duration := 2, timestamp := 0 })] 9).2.2
    (runCheck ("db")
      { outcome := .error ("down"), timeout := 500, critical := true,
        duration := 2, timestamp := 0 })
    (by decide) (by decide) (by decide)

/-- C3.  Evaluation of the code on a single registered, failing,
non-critical check: the report records exactly one unhealthy, non-critical
result and zero critical failures, yet the `/health` endpoint aggregation
reports `unhealthy`, not `degraded` — because `runAllChecks` marks the whole
report `unhealthy` on any failure, the endpoint's `degraded` branch cannot
fire for it. -/
theorem C3_noncritical_failure_reports_unhealthy :
    (runAllChecks c3Checks 0).checks.map CheckResult.status = [.unhealthy]
    ∧ (runAllChecks c3Checks 0).checks.map CheckResult.critical = [some false]
    ∧ (runAllChecks c3Checks 0).criticalFailures = 0
    ∧ healthEndpointStatus
        (getStatus (updateHistory [] (runAllChecks c3Checks 0) 100) 0) = ("unhealthy")
    ∧ healthEndpointStatus
        (getStatus (updateHistory [] (runAllChecks c3Checks 0) 100) 0) ≠ ("degraded") := by
  decide

/-- C4 counterexample: a check configured `critical := true` whose function
succeeds yields a healthy result with NO `critical` field — the healthy
branch of `runCheck` (server.js 451-457) omits it, so not every
HealthCheckResult contains the configured critical flag. -/
theorem C4_counterexample_healthy_result_lacks_critical :
    (runCheck ("db")
      { outcome := .ok 0, timeout := 1000, critical := true, duration := 5,
        timestamp := 7 }).status = .healthy
    ∧ (runCheck ("db")
      { outcome := .ok 0, timeout := 1000, critical := true, duration := 5,
        timestamp := 7 }).critical = none := by
  decide

/-- C4 amended.  Every result carries name, duration and timestamp; an
unhealthy result carries the configured critical flag and an error message
(and no details), while a healthy result carries details (and neither an
error nor a critical flag). -/
theorem C4_result_fields_amended (name : String) (cfg : CheckConfig) :
    (runCheck name cfg).name = name
    ∧ (runCheck name cfg).duration = cfg.duration
    ∧ (runCheck name cfg).timestamp = cfg.timestamp
    ∧ ((runCheck name cfg).status = .unhealthy →
        (runCheck name cfg).critical = some cfg.critical
        ∧ (runCheck name cfg).details = none
        ∧ (runCheck name cfg).error.isSome)
    ∧ ((runCheck name cfg).status = .healthy →
        (runCheck name cfg).critical = none
        ∧ (runCheck name cfg).error = none
        ∧ (runCheck name cfg).details.isSome) := by
  cases h : cfg.outcome <;> simp [runCheck, h]

/-- C4 amended witness: an unhealthy run of a critical check records
`critical = some true`. -/
theorem C4_result_fields_witness :
    (runCheck ("db")
      { outcome := .error ("boom"), timeout := 1, critical := true,
        duration := 2, timestamp := 3 }).critical = some true :=
  ((C4_result_fields_amended ("db")
      { outcome := .error ("boom"), timeout := 1, critical := true,
        duration := 2, timestamp := 3 }).2.2.2.1 (by decide)).1

/-- C5.  Label maps with the same key-value pairs in different insertion
orders canonicalize to the same series key (keys are sorted before the key
string is built), so counter/gauge/histogram calls resolve to one and the
same series; in particular the two `counter("x", 1, …)` calls with swapped
label order accumulate into a single series of value 2. -/
theorem C5_label_order_independence (name : String)
    (l₁ l₂ : List (String × String)) (hp : l₁.Perm l₂)
    (hnd : (l₁.map Prod.fst).Nodup) :
    getMetricKey name l₁ = getMetricKey name l₂
    ∧ counter (counter [] ("x") 1 [(("a"), ("1")), (("b"), ("2"))] 0) ("x") 1
        [(("b"), ("2")), (("a"), ("1"))] 1
      = [(getMetricKey ("x") [(("a"), ("1")), (("b"), ("2"))],
          { type := ("counter"), value := 2, values := [],
            labels := [(("a"), ("1")), (("b"), ("2"))], lastUpdated := 1 })] := by
  constructor
  · have hsort : l₁.insertionSort labelLe = l₂.insertionSort labelLe := by
      refine sorted_perm_eq_on
        ((List.perm_insertionSort labelLe l₁).trans
          (hp.trans (List.perm_insertionSort labelLe l₂).symm))
        (List.sorted_insertionSort labelLe l₁)
        (List.sorted_insertionSort labelLe l₂) ?_
      intro a ha b hb hab hba
      exact List.inj_on_of_nodup_map hnd
        ((List.mem_insertionSort labelLe).1 ha)
        ((List.mem_insertionSort labelLe).1 hb)
        (string_data_ext (strLeb_antisymm _ _ hab hba))
    simp [getMetricKey, hsort]
  · decide

/-- C5 witness: the two label orders of the concrete example canonicalize to
the same key. -/
theorem C5_label_order_independence_witness :
    getMetricKey ("x") [(("a"), ("1")), (("b"), ("2"))]
      = getMetricKey ("x") [(("b"), ("2")), (("a"), ("1"))] :=
  (C5_label_order_independence ("x") [(("a"), ("1")), (("b"), ("2"))]
    [(("b"), ("2")), (("a"), ("1"))] (by decide) (by decide)).1

/-- The key of an unlabeled metric is its bare name. -/
theorem getMetricKey_nil (name : String) : getMetricKey name [] = name := rfl

/-- The push-then-truncate step always yields the most recent 1000 entries of
the extended list. -/
theorem pushCap_eq_window (cur : List Int) (v : Int) :
    pushCap cur v = windowCap (cur ++ [v]) := by
  simp only [pushCap, windowCap]
  split_ifs with h
  · rfl
  · have hz : (cur ++ [v]).length - 1000 = 0 := by omega
    rw [hz, List.drop_zero]

/-- The capped list never exceeds 1000 entries. -/
theorem pushCap_length_le (cur : List Int) (v : Int) :
    (pushCap cur v).length ≤ 1000 := by
  simp only [pushCap]
  split_ifs with h
  · simp only [List.length_drop]
    omega
  · simp only [List.length_append, List.length_singleton] at h ⊢
    omega

/-- Taking the recent window commutes with later extensions. -/
theorem windowCap_windowCap_append (a b : List Int) :
    windowCap (windowCap a ++ b) = windowCap (a ++ b) := by
  simp only [windowCap, List.length_append, List.length_drop,
    List.drop_append_eq_append_drop, List.drop_drop]
  have h1 : a.length - 1000 + (a.length - (a.length - 1000) + b.length - 1000)
      = a.length + b.length - 1000 := by omega
  have h2 : a.length - (a.length - 1000) + b.length - 1000
        - (a.length - (a.length - 1000))
      = a.length + b.length - 1000 - a.length := by omega
  rw [h1, h2]

/-- Folding capped pushes over a short starting list yields the recent window
of the full observation sequence. -/
theorem foldl_pushCap (vs : List Int) :
    ∀ cur : List Int, cur.length ≤ 1000 →
      vs.foldl pushCap cur = windowCap (cur ++ vs) := by
  induction vs with
  | nil =>
      intro cur h
      simp only [List.foldl_nil, List.append_nil, windowCap]
      have hz : cur.length - 1000 = 0 := by omega
      rw [hz, List.drop_zero]
  | cons v vs ih =>
      intro cur h
      rw [List.foldl_cons, ih (pushCap cur v) (pushCap_length_le cur v),
        pushCap_eq_window, windowCap_windowCap_append, List.append_assoc]
      rfl

/-- Unfolding one observation of `histMany`. -/
theorem histMany_cons (m : MetricsMap) (name : String)
    (labels : List (String × String)) (now : Nat) (v : Int) (vs : List Int) :
    histMany m name labels now (v :: vs)
      = histMany (histogram m name v labels now) name labels now vs := rfl

/-- The first observation creates the series with a one-entry value list. -/
theorem histogram_empty (name : String) (labels : List (String × String))
    (now : Nat) (v : Int) :
    histogram [] name v labels now
      = [(getMetricKey name labels,
          { type := ("histogram"), value := 0, values := [v], labels := labels,
            lastUpdated := now })] := by
  simp [histogram, assocGet, assocSet, pushCap]

/-- An observation against the sole stored series pushes into its value list
with the cap applied. -/
theorem histogram_single (name : String) (labels labels0 : List (String × String))
    (x : Int) (cur : List Int) (lu now : Nat) (v : Int) :
    histogram [(getMetricKey name labels,
        { type := ("histogram"), value := x, values := cur, labels := labels0,
          lastUpdated := lu })] name v labels now
      = [(getMetricKey name labels,
          { type := ("histogram"), value := x, values := pushCap cur v,
            labels := labels0, lastUpdated := now })] := by
  simp [histogram, assocGet, assocSet]

/-- A run of observations against the sole stored series folds the capped
push over its value list. -/
theorem histMany_single (name : String) (labels labels0 : List (String × String))
    (x : Int) (now : Nat) :
    ∀ (vs : List Int) (cur : List Int),
    histMany [(getMetricKey name labels,
        { type := ("histogram"), value := x, values := cur, labels := labels0,
          lastUpdated := now })] name labels now vs
      = [(getMetricKey name labels,
          { type := ("histogram"), value := x, values := vs.foldl pushCap cur,
            labels := labels0, lastUpdated := now })] := by
  intro vs
  induction vs with
  | nil => intro cur; rfl
  | cons v vs ih =>
      intro cur
      rw [histMany_cons, histogram_single, List.foldl_cons]
      exact ih (pushCap cur v)

/-- A constant list is sorted. -/
theorem sorted_replicate (n : Nat) (a : Int) :
    (List.replicate n a).Sorted (· ≤ ·) := by
  induction n with
  | zero => simp
  | succ k ih =>
      rw [List.replicate_succ, List.sorted_cons]
      exact ⟨fun b hb => by rw [List.eq_of_mem_replicate hb], ih⟩

/-- C6 amended.  Without an interleaved `getMetrics`, a sequence of
`histogram` observations leaves the series holding exactly the most recent
(at most 1000) observed values in observation order: the stored list is the
final length-1000 suffix of the observation sequence. -/
theorem C6_window_without_interleaving (name : String)
    (labels : List (String × String)) (now : Nat) (vs : List Int) :
    assocGet (histMany [] name labels now vs) (getMetricKey name labels)
      = (if vs = [] then none
         else some { type := ("histogram"), value := 0,
                     values := vs.drop (vs.length - 1000), labels := labels,
                     lastUpdated := now })
    ∧ (vs.drop (vs.length - 1000)).length ≤ 1000 := by
  constructor
  · cases vs with
    | nil => simp [histMany, assocGet]
    | cons v vs' =>
        rw [histMany_cons, histogram_empty, histMany_single,
          foldl_pushCap vs' [v] (by simp)]
        simp [assocGet, windowCap]
  · rw [List.length_drop]
    omega

/-- C6 counterexample: fill a series with the 1000 observations
`2, 1, 3, 3, …, 3`, call `getMetrics` (which sorts the stored list in
place), then observe `0`.  The series then retains the value `2` — the
oldest observation — while the 1000 most recently observed values (all
observations except the leading `2`) do not include it, so the retained
values are NOT the 1000 most recent observations, neither as a list nor as
a multiset. -/
theorem C6_counterexample_interleaved_getMetrics :
    ((2 : Int) ∈ c6Stored ∧ (2 : Int) ∉ c6Window)
    ∧ c6Stored ≠ c6Window
    ∧ c6Stored.length ≤ 1000 := by
  have hobs : c6Obs = 2 :: 1 :: List.replicate 998 3 := rfl
  have hlen : c6Obs.length = 1000 := by
    rw [hobs, List.length_cons, List.length_cons, List.length_replicate]
  have hw : windowCap c6Obs = c6Obs := by
    rw [windowCap, hlen, show (1000 : Nat) - 1000 = 0 from rfl, List.drop_zero]
  have h1 : histMany [] ("h") [] 0 c6Obs
      = [(getMetricKey ("h") [],
          { type := ("histogram"), value := 0, values := c6Obs, labels := [],
            lastUpdated := 0 })] := by
    conv_lhs => rw [hobs]
    rw [histMany_cons, histogram_empty, histMany_single,
      foldl_pushCap _ [2] (by norm_num)]
    have h2obs : (([2] : List Int) ++ (1 :: List.replicate 998 3)) = c6Obs := by
      rw [hobs]
      rfl
    rw [h2obs, hw]
  have h2 : (getMetrics (histMany [] ("h") [] 0 c6Obs)).2
      = [(getMetricKey ("h") [],
          { type := ("histogram"), value := 0, values := sortedValues c6Obs,
            labels := [], lastUpdated := 0 })] := by
    rw [h1]
    show [(getMetricKey ("h") [],
      sortInPlace (⟨("histogram"), 0, c6Obs, [], 0⟩ : Metric))] = _
    rw [sortInPlace, if_pos rfl]
  have hsort : sortedValues c6Obs = 1 :: 2 :: List.replicate 998 3 := by
    have htarget : (1 :: 2 :: List.replicate 998 (3 : Int)).Sorted (· ≤ ·) := by
      rw [List.sorted_cons]
      refine ⟨fun b hb => ?_, ?_⟩
      · rcases List.mem_cons.1 hb with rfl | hb
        · norm_num
        · rw [List.eq_of_mem_replicate hb]
          norm_num
      · rw [List.sorted_cons]
        refine ⟨fun b hb => ?_, sorted_replicate 998 3⟩
        rw [List.eq_of_mem_replicate hb]
        norm_num
    refine List.eq_of_perm_of_sorted ?_ (List.sorted_insertionSort _ _) htarget
    refine (List.perm_insertionSort _ _).trans ?_
    rw [hobs]
    exact List.Perm.swap 1 2 _
  have h3 : c6State
      = [(getMetricKey ("h") [],
          { type := ("histogram"), value := 0,
            values := pushCap (1 :: 2 :: List.replicate 998 3) 0, labels := [],
            lastUpdated := 0 })] := by
    show histogram ((getMetrics (histMany [] ("h") [] 0 c6Obs)).2) ("h") 0 [] 0 = _
    rw [h2, hsort]
    exact histogram_single ("h") [] [] 0 (1 :: 2 :: List.replicate 998 3) 0 0 0
  have hpush : pushCap (1 :: 2 :: List.replicate 998 3) 0
      = 2 :: (List.replicate 998 3 ++ [0]) := by
    rw [pushCap_eq_window, windowCap]
    have hlen1 : ((1 :: 2 :: List.replicate 998 (3 : Int)) ++ [0]).length = 1001 := by
      rw [List.length_append, List.length_cons, List.length_cons,
        List.length_replicate, List.length_singleton]
    rw [hlen1, show (1001 : Nat) - 1000 = 1 from rfl, List.cons_append,
      List.cons_append]
    rfl
  have hstored : c6Stored = 2 :: (List.replicate 998 3 ++ [0]) := by
    unfold c6Stored
    rw [h3, getMetricKey_nil, assocGet_cons_self, Option.getD_some, hpush]
  have hwindow : c6Window = 1 :: (List.replicate 998 3 ++ [0]) := by
    unfold c6Window
    rw [hobs]
    have hlen2 : ((2 :: 1 :: List.replicate 998 (3 : Int)) ++ [0]).length = 1001 := by
      rw [List.length_append, List.length_cons, List.length_cons,
        List.length_replicate, List.length_singleton]
    rw [hlen2, show (1001 : Nat) - 1000 = 1 from rfl, List.cons_append,
      List.cons_append]
    rfl
  refine ⟨⟨?_, ?_⟩, ?_, ?_⟩
  · rw [hstored]
    exact List.mem_cons_self _ _
  · rw [hwindow]
    intro hmem
    rcases List.mem_cons.1 hmem with h | h
    · norm_num at h
    · rcases List.mem_append.1 h with h | h
      · have := List.eq_of_mem_replicate h
        norm_num at this
      · rw [List.mem_singleton] at h
        norm_num at h
  · rw [hstored, hwindow]
    intro h
    injection h with h1 _
    exact absurd h1 (by norm_num)
  · rw [hstored, List.length_cons, List.length_append, List.length_replicate,
      List.length_singleton]

/-- An in-bounds `getD` produces an element of the list. -/
theorem getD_mem {l : List Int} {i : Nat} (h : i < l.length) :
    l.getD i 0 ∈ l := by
  rw [List.getD_eq_getElem l 0 h]
  exact List.getElem_mem h

/-- In a sorted list, every element is at most the last one. -/
theorem sorted_le_getD_last {l : List Int} (hs : l.Sorted (· ≤ ·))
    (x : Int) (hx : x ∈ l) : x ≤ l.getD (l.length - 1) 0 := by
  obtain ⟨i, hix⟩ := List.mem_iff_get.1 hx
  have hlast : l.length - 1 < l.length := by
    have := i.isLt
    omega
  rw [List.getD_eq_getElem l 0 hlast, ← hix]
  have := hs.rel_get_of_le (a := i) (b := ⟨l.length - 1, hlast⟩)
    (by
      rw [Fin.le_def]
      have := i.isLt
      simp
      omega)
  simpa [List.get_eq_getElem] using this

/-- C7.  `getMetrics` reports, for each histogram series, statistics of the
sorted value list with nearest-rank percentiles: the count and sum are those
of the stored multiset, min/max are its least/greatest members, each
percentile is a stored value (the element at index `floor(count * q)` of the
sorted list), an empty series reports all zeros, and the ten values
`1..10` yield `count = 10, sum = 55, min = 1, max = 10, p50 = 6`. -/
theorem C7_histogram_stats (vs : List Int) :
    (histStats vs).count = vs.length
    ∧ (histStats vs).sum = vs.foldl (· + ·) 0
    ∧ (vs ≠ [] → (histStats vs).min ∈ vs ∧ ∀ x ∈ vs, (histStats vs).min ≤ x)
    ∧ (vs ≠ [] → (histStats vs).max ∈ vs ∧ ∀ x ∈ vs, x ≤ (histStats vs).max)
    ∧ (vs ≠ [] → (histStats vs).p50 ∈ vs ∧ (histStats vs).p95 ∈ vs
        ∧ (histStats vs).p99 ∈ vs)
    ∧ (vs = [] → histStats vs = ⟨0, 0, 0, 0, 0, 0, 0⟩)
    ∧ histStats [1, 2, 3, 4, 5, 6, 7, 8, 9, 10] = ⟨10, 55, 1, 10, 6, 10, 10⟩ := by
  have hperm : (sortedValues vs).Perm vs := List.perm_insertionSort _ vs
  have hsorted : (sortedValues vs).Sorted (· ≤ ·) :=
    List.sorted_insertionSort _ vs
  refine ⟨hperm.length_eq, hperm.foldl_eq 0, ?_, ?_, ?_, ?_, by decide⟩
  · intro hne
    have hlen : (sortedValues vs).length > 0 := by
      rw [hperm.length_eq]
      exact List.length_pos.2 hne
    have hmin : (histStats vs).min = (sortedValues vs).headD 0 := by
      show (if (sortedValues vs).length > 0
        then (sortedValues vs).headD 0 else 0) = _
      rw [if_pos hlen]
    rw [hmin]
    rcases hsv : sortedValues vs with _ | ⟨a, t⟩
    · rw [hsv] at hlen
      simp at hlen
    · rw [hsv] at hperm hsorted
      rw [List.headD_cons]
      refine ⟨hperm.subset (List.mem_cons_self _ _), ?_⟩
      intro x hx
      rcases List.mem_cons.1 (hperm.symm.subset hx) with rfl | hx'
      · exact le_refl x
      · exact List.rel_of_sorted_cons hsorted x hx'
  · intro hne
    have hlen : (sortedValues vs).length > 0 := by
      rw [hperm.length_eq]
      exact List.length_pos.2 hne
    have hmax : (histStats vs).max
        = (sortedValues vs).getD ((sortedValues vs).length - 1) 0 := by
      show (if (sortedValues vs).length > 0
        then (sortedValues vs).getD ((sortedValues vs).length - 1) 0 else 0) = _
      rw [if_pos hlen]
    rw [hmax]
    refine ⟨hperm.subset (getD_mem (by omega)), ?_⟩
    intro x hx
    exact sorted_le_getD_last hsorted x (hperm.symm.subset hx)
  · intro hne
    have hlen : (sortedValues vs).length > 0 := by
      rw [hperm.length_eq]
      exact List.length_pos.2 hne
    have h50 : (sortedValues vs).length * 50 / 100 < (sortedValues vs).length :=
      Nat.div_lt_of_lt_mul (by omega)
    have h95 : (sortedValues vs).length * 95 / 100 < (sortedValues vs).length :=
      Nat.div_lt_of_lt_mul (by omega)
    have h99 : (sortedValues vs).length * 99 / 100 < (sortedValues vs).length :=
      Nat.div_lt_of_lt_mul (by omega)
    have hp50 : (histStats vs).p50
        = (sortedValues vs).getD ((sortedValues vs).length * 50 / 100) 0 := by
      show (if (sortedValues vs).length > 0
        then (sortedValues vs).getD ((sortedValues vs).length * 50 / 100) 0
        else 0) = _
      rw [if_pos hlen]
    have hp95 : (histStats vs).p95
        = (sortedValues vs).getD ((sortedValues vs).length * 95 / 100) 0 := by
      show (if (sortedValues vs).length > 0
        then (sortedValues vs).getD ((sortedValues vs).length * 95 / 100) 0
        else 0) = _
      rw [if_pos hlen]
    have hp99 : (histStats vs).p99
        = (sortedValues vs).getD ((sortedValues vs).length * 99 / 100) 0 := by
      show (if (sortedValues vs).length > 0
        then (sortedValues vs).getD ((sortedValues vs).length * 99 / 100) 0
        else 0) = _
      rw [if_pos hlen]
    rw [hp50, hp95, hp99]
    exact ⟨hperm.subset (getD_mem h50), hperm.subset (getD_mem h95),
      hperm.subset (getD_mem h99)⟩
  · intro h
    subst h
    rfl

/-- C7 witness: for the ten concrete values the median is a stored value. -/
theorem C7_histogram_stats_witness :
    (histStats [1, 2, 3, 4, 5, 6, 7, 8, 9, 10]).p50
      ∈ ([1, 2, 3, 4, 5, 6, 7, 8, 9, 10] : List Int) :=
  ((C7_histogram_stats [1, 2, 3, 4, 5, 6, 7, 8, 9, 10]).2.2.2.2.1
    (by decide)).1

/-- C10.  `getMetrics` is not a pure read: the post-call collector state
holds, for every histogram series, the sorted version of its stored value
list (same multiset, ascending order), while non-histogram series are
untouched; and two collectors differing only in the observation order of a
series become indistinguishable after one `getMetrics` call — the
observation order is lost. -/
theorem C10_getMetrics_sorts_in_place (m : MetricsMap) (key : String)
    (metric : Metric) (h : assocGet m key = some metric) :
    (∃ metric', assocGet (getMetrics m).2 key = some metric'
      ∧ (metric.type = ("histogram") →
          metric'.values = sortedValues metric.values
          ∧ metric'.values.Sorted (· ≤ ·)
          ∧ metric'.values.Perm metric.values)
      ∧ (metric.type ≠ ("histogram") → metric' = metric))
    ∧ (getMetrics c10A).2 = (getMetrics c10B).2
    ∧ c10A ≠ c10B := by
  refine ⟨⟨sortInPlace metric, ?_, ?_, ?_⟩, by decide, by decide⟩
  · show assocGet (m.map (fun p => (p.1, sortInPlace p.2))) key = _
    rw [assocGet_map, h, Option.map_some']
  · intro ht
    refine ⟨?_, ?_, ?_⟩
    · rw [sortInPlace, if_pos ht]
    · rw [sortInPlace, if_pos ht]
      exact List.sorted_insertionSort _ _
    · rw [sortInPlace, if_pos ht]
      exact List.perm_insertionSort _ _
  · intro ht
    rw [sortInPlace, if_neg ht]

/-- C10 witness: the two-value demonstration states collapse to the same
post-call state. -/
theorem C10_getMetrics_sorts_in_place_witness :
    (getMetrics c10A).2 = (getMetrics c10B).2 :=
  (C10_getMetrics_sorts_in_place c10A ("h")
    { type := ("histogram"), value := 0, values := [2, 1], labels := [],
      lastUpdated := 0 } (by decide)).2.1

/-- Sequencing after a successful action continues with its state. -/
theorem seqStep_none {r : FsStep} (h : r.2 = none) (f : LogFs → FsStep) :
    seqStep r f = f r.1 := by
  rcases r with ⟨fs2, err⟩
  cases err with
  | none => rfl
  | some e => exact absurd h (by simp)

/-- Sequencing after a thrown action short-circuits. -/
theorem seqStep_some {r : FsStep} {e : String} (h : r.2 = some e)
    (f : LogFs → FsStep) : seqStep r f = r := by
  rcases r with ⟨fs2, err⟩
  cases err with
  | none => exact absurd h (by simp)
  | some e' => rfl

/-- A fault-free shift-loop step never throws. -/
theorem rotateStep_err (mf i : Nat) (fs : LogFs) :
    (rotateStep allOk mf i fs).2 = none := by
  unfold rotateStep
  cases harch : archGet fs i with
  | none => rfl
  | some c => by_cases h : i = mf - 1 <;> simp [h, allOk]

/-- The shift loop's steps do not touch the live file. -/
theorem rotateStep_live (mf i : Nat) (fs : LogFs) :
    ((rotateStep allOk mf i fs).1).live = fs.live := by
  unfold rotateStep
  cases harch : archGet fs i with
  | none => rfl
  | some c => by_cases h : i = mf - 1 <;> simp [h, allOk]

/-- A step at index `i` leaves archives below `i` alone. -/
theorem rotateStep_archGet_lt (mf i : Nat) (fs : LogFs) (j : Nat)
    (hj : j < i) :
    archGet (rotateStep allOk mf i fs).1 j = archGet fs j := by
  unfold rotateStep
  cases harch : archGet fs i with
  | none => rfl
  | some c =>
      dsimp only
      by_cases h : i = mf - 1
      · rw [if_pos h]
        simp [allOk, archGet, assocGet_assocErase, show ¬ (j = i) by omega]
      · rw [if_neg h]
        simp [allOk, archGet, assocGet_assocErase, assocGet_assocSet_ne,
          show ¬ (j = i) by omega, show j ≠ i + 1 by omega]

/-- A step at index `i` leaves archives above `i + 1` alone. -/
theorem rotateStep_archGet_gt (mf i : Nat) (fs : LogFs) (j : Nat)
    (hj : j > i + 1) :
    archGet (rotateStep allOk mf i fs).1 j = archGet fs j := by
  unfold rotateStep
  cases harch : archGet fs i with
  | none => rfl
  | some c =>
      dsimp only
      by_cases h : i = mf - 1
      · rw [if_pos h]
        simp [allOk, archGet, assocGet_assocErase, show ¬ (j = i) by omega]
      · rw [if_neg h]
        simp [allOk, archGet, assocGet_assocErase, assocGet_assocSet_ne,
          show ¬ (j = i) by omega, show j ≠ i + 1 by omega]

/-- After its step runs, archive `i` is gone: deleted at the top index,
renamed away below it, or already missing. -/
theorem rotateStep_archGet_self (mf i : Nat) (fs : LogFs) :
    archGet (rotateStep allOk mf i fs).1 i = none := by
  unfold rotateStep
  cases harch : archGet fs i with
  | none => exact harch
  | some c =>
      dsimp only
      by_cases h : i = mf - 1
      · rw [if_pos h]
        simp [allOk, archGet, assocGet_assocErase]
      · rw [if_neg h]
        simp [allOk, archGet, assocGet_assocErase, assocGet_assocSet_ne,
          show i ≠ i + 1 by omega]

/-- Below the top index, the step moves archive `i` onto `i + 1`, leaving
`i + 1` alone when `i` was missing. -/
theorem rotateStep_archGet_succ_ne (mf i : Nat) (fs : LogFs)
    (h : i ≠ mf - 1) :
    archGet (rotateStep allOk mf i fs).1 (i + 1)
      = (match archGet fs i with
         | some c => some c
         | none => archGet fs (i + 1)) := by
  unfold rotateStep
  cases harch : archGet fs i with
  | none => rfl
  | some c =>
      simp [h, allOk, archGet, assocGet_assocSet_self]

/-- At the top index the step deletes archive `mf - 1` without writing the
slot above it: slot `mf` is left exactly as it was. -/
theorem rotateStep_archGet_top (mf i : Nat) (fs : LogFs) (h : i = mf - 1) :
    archGet (rotateStep allOk mf i fs).1 (i + 1) = archGet fs (i + 1) := by
  unfold rotateStep
  cases harch : archGet fs i with
  | none => rfl
  | some c =>
      dsimp only
      rw [if_pos h]
      simp [allOk, archGet, assocGet_assocErase, show ¬ (i + 1 = i) by omega]

/-- Behaviour of the fault-free shift loop `rotateLoop allOk mf i`
(processing indices `i, …, 1`): it never throws, preserves the live file,
moves every archive `j - 1` onto `j` for `2 ≤ j ≤ i`, exposes the pending
move at `i + 1` for partial runs, leaves archives above `i + 1` alone, and —
when run from the top index `mf - 1` — leaves slot `mf` untouched because the
top archive is deleted, not renamed upward. -/
theorem rotateLoop_spec (mf : Nat) :
    ∀ i, i ≤ mf - 1 → ∀ fs : LogFs,
      (rotateLoop allOk mf i fs).2 = none
      ∧ ((rotateLoop allOk mf i fs).1).live = fs.live
      ∧ (∀ j, 2 ≤ j → j ≤ i →
          archGet (rotateLoop allOk mf i fs).1 j = archGet fs (j - 1))
      ∧ (1 ≤ i → i < mf - 1 →
          archGet (rotateLoop allOk mf i fs).1 (i + 1)
            = (match archGet fs i with
               | some c => some c
               | none => archGet fs (i + 1)))
      ∧ (∀ j, j > i + 1 →
          archGet (rotateLoop allOk mf i fs).1 j = archGet fs j)
      ∧ (i = mf - 1 →
          archGet (rotateLoop allOk mf i fs).1 (i + 1) = archGet fs (i + 1)) := by
  intro i
  induction i with
  | zero =>
      intro _ fs
      refine ⟨rfl, rfl, ?_, ?_, ?_, ?_⟩
      · intro j h2 h0
        omega
      · intro h
        omega
      · intro j _
        rfl
      · intro _
        rfl
  | succ i ih =>
      intro hle fs
      have hile : i ≤ mf - 1 := by omega
      have hstep_err : (rotateStep allOk mf (i + 1) fs).2 = none :=
        rotateStep_err mf (i + 1) fs
      have hunfold : rotateLoop allOk mf (i + 1) fs
          = rotateLoop allOk mf i (rotateStep allOk mf (i + 1) fs).1 := by
        show seqStep (rotateStep allOk mf (i + 1) fs)
          (rotateLoop allOk mf i) = _
        exact seqStep_none hstep_err _
      obtain ⟨ih_err, ih_live, ih_shift, ih_succ, ih_untouched, _⟩ :=
        ih hile (rotateStep allOk mf (i + 1) fs).1
      rw [hunfold]
      refine ⟨ih_err, ih_live.trans (rotateStep_live mf (i + 1) fs), ?_, ?_, ?_, ?_⟩
      · intro j h2 hji
        by_cases hj : j ≤ i
        · rw [ih_shift j h2 hj]
          exact rotateStep_archGet_lt mf (i + 1) fs (j - 1) (by omega)
        · have hj' : j = i + 1 := by omega
          subst hj'
          have hone : i + 1 - 1 = i := by omega
          rw [hone]
          have hi1 : 1 ≤ i := by omega
          have hi2 : i < mf - 1 := by omega
          rw [ih_succ hi1 hi2,
            rotateStep_archGet_lt mf (i + 1) fs i (by omega),
            rotateStep_archGet_self mf (i + 1) fs]
          cases archGet fs i <;> rfl
      · intro hi1 hi2
        rw [ih_untouched (i + 2) (by omega)]
        exact rotateStep_archGet_succ_ne mf (i + 1) fs (by omega)
      · intro j hj
        rw [ih_untouched j (by omega)]
        exact rotateStep_archGet_gt mf (i + 1) fs j (by omega)
      · intro htop
        rw [ih_untouched (i + 2) (by omega)]
        exact rotateStep_archGet_top mf (i + 1) fs htop

/-- A fault-free rename of the live file to archive 1. -/
theorem renameLiveToArch1_allOk (fs : LogFs) (cl : List String)
    (hlive : fs.live = some cl) :
    renameLiveToArch1 allOk fs
      = ({ live := none, archives := assocSet fs.archives 1 cl }, none) := by
  unfold renameLiveToArch1
  rw [hlive]
  rfl

/-- C8.  When the live file exists and its size exceeds `maxFileSize`, the
next `writeToFile` rotates before appending: archive `N` shifts to `N + 1`
for `N` from 1 to `maxFiles - 2`; the archive at `maxFiles - 1` is deleted
rather than exceeding `maxFiles` — every slot at index `maxFiles` or above is
left exactly as it was, so no rotation ever creates an archive beyond
`maxFiles - 1`; the old live file becomes archive 1, and a fresh live file
holding only the new record is started.  With `maxFileSize = 100` and the
default `maxFiles = 5`, five 60-byte records trip the threshold twice,
producing `level.log`, `level.log.1`, `level.log.2` with the newest record
only in `level.log`; and a write against a full family (archives 1-4 all
present) deletes the oldest record outright: no `.5` appears and the old
`.4` content survives nowhere. -/
theorem C8_rotation (mfsz mfl : Nat) (fs : LogFs) (line : String)
    (cl : List String) (hmfl : 2 ≤ mfl) (hlive : fs.live = some cl)
    (hsz : fileSize cl > mfsz) :
    (((writeToFile allOk true mfsz mfl fs line).1).live = some [line]
      ∧ archGet (writeToFile allOk true mfsz mfl fs line).1 1 = some cl
      ∧ (∀ i, 1 ≤ i → i ≤ mfl - 2 →
          archGet (writeToFile allOk true mfsz mfl fs line).1 (i + 1)
            = archGet fs i)
      ∧ (∀ j, mfl ≤ j →
          archGet (writeToFile allOk true mfsz mfl fs line).1 j
            = archGet fs j)
      ∧ (writeToFile allOk true mfsz mfl fs line).2 = [])
    ∧ (c8Final.live = some [rec8 ('e')]
      ∧ archGet c8Final 1 = some [rec8 ('c'), rec8 ('d')]
      ∧ archGet c8Final 2 = some [rec8 ('a'), rec8 ('b')]
      ∧ archGet c8Final 3 = none
      ∧ archGet c8Final 4 = none
      ∧ rec8 ('e') ∉ (archGet c8Final 1).getD []
      ∧ rec8 ('e') ∉ (archGet c8Final 2).getD [])
    ∧ (c8AfterFull.live = some [rec8 ('g')]
      ∧ archGet c8AfterFull 1 = some [rec8 ('e'), rec8 ('f')]
      ∧ archGet c8AfterFull 2 = some [rec8 ('d')]
      ∧ archGet c8AfterFull 3 = some [rec8 ('c')]
      ∧ archGet c8AfterFull 4 = some [rec8 ('b')]
      ∧ archGet c8AfterFull 5 = none
      ∧ [rec8 ('a')] ∉ c8AfterFull.archives.map Prod.snd
      ∧ c8AfterFull.live ≠ some [rec8 ('a')]) := by
  obtain ⟨herr, hlive2, hshift, _, huntouched, htop⟩ :=
    rotateLoop_spec mfl (mfl - 1) (le_refl _) fs
  have hrot : rotateLogFile allOk mfl fs
      = ({ live := none,
           archives := assocSet
             ((rotateLoop allOk mfl (mfl - 1) fs).1).archives 1 cl }, []) := by
    unfold rotateLogFile
    rw [seqStep_none herr,
      renameLiveToArch1_allOk (rotateLoop allOk mfl (mfl - 1) fs).1 cl
        (hlive2.trans hlive)]
  have key : writeToFile allOk true mfsz mfl fs line
      = ({ live := some [line],
           archives := assocSet
             ((rotateLoop allOk mfl (mfl - 1) fs).1).archives 1 cl }, []) := by
    unfold writeToFile writeBody statLiveSize appendLive
    rw [hlive]
    dsimp only
    rw [if_neg (by decide : ¬ (true = false)),
      if_neg (by decide : ¬ (allOk.failStat = true))]
    dsimp only
    rw [Option.getD_some, if_pos hsz, hrot,
      if_neg (by decide : ¬ (allOk.failAppend = true))]
    rfl
  rw [key]
  refine ⟨⟨rfl, ?_, ?_, ?_, rfl⟩, ?_, ?_⟩
  · show assocGet (assocSet
      ((rotateLoop allOk mfl (mfl - 1) fs).1).archives 1 cl) 1 = some cl
    exact assocGet_assocSet_self _ 1 cl
  · intro i h1 h2
    show assocGet (assocSet
      ((rotateLoop allOk mfl (mfl - 1) fs).1).archives 1 cl) (i + 1) = archGet fs i
    rw [assocGet_assocSet_ne _ 1 (i + 1) cl (by omega)]
    have := hshift (i + 1) (by omega) (by omega)
    have hone : i + 1 - 1 = i := by omega
    rw [hone] at this
    exact this
  · intro j hj
    show assocGet (assocSet
      ((rotateLoop allOk mfl (mfl - 1) fs).1).archives 1 cl) j = archGet fs j
    rw [assocGet_assocSet_ne _ 1 j cl (by omega)]
    by_cases hj' : j = mfl
    · rw [hj']
      have hone : mfl - 1 + 1 = mfl := by omega
      have := htop rfl
      rw [hone] at this
      exact this
    · exact huntouched j (by omega)
  · refine ⟨?_, ?_, ?_, ?_, ?_, ?_, ?_⟩ <;> decide
  · refine ⟨?_, ?_, ?_, ?_, ?_, ?_, ?_, ?_⟩ <;> decide

/-- C8 witness: against a family whose top archive (`maxFiles - 1 = 2`)
exists, a single over-threshold write starts a fresh live file with the new
record, moves the old live content to archive 1, shifts archive 1 to 2 —
deleting the old top archive in the process — and leaves slot `maxFiles = 3`
exactly as it was (empty): no archive beyond `maxFiles - 1` is created. -/
theorem C8_rotation_witness :
    ((writeToFile allOk true 1 3 c8WitnessFs ("r2")).1).live = some [("r2")]
    ∧ archGet (writeToFile allOk true 1 3 c8WitnessFs ("r2")).1 1
        = some [("r1")]
    ∧ archGet (writeToFile allOk true 1 3 c8WitnessFs ("r2")).1 2
        = archGet c8WitnessFs 1
    ∧ archGet (writeToFile allOk true 1 3 c8WitnessFs ("r2")).1 3
        = archGet c8WitnessFs 3 :=
  ⟨(C8_rotation 1 3 c8WitnessFs ("r2") [("r1")] (by norm_num) rfl
      (by decide)).1.1,
   (C8_rotation 1 3 c8WitnessFs ("r2") [("r1")] (by norm_num) rfl
      (by decide)).1.2.1,
   (C8_rotation 1 3 c8WitnessFs ("r2") [("r1")] (by norm_num) rfl
      (by decide)).1.2.2.1 1 (by norm_num) (by norm_num),
   (C8_rotation 1 3 c8WitnessFs ("r2") [("r1")] (by norm_num) rfl
      (by decide)).1.2.2.2.1 3 (by norm_num)⟩

/-- C9.  Logging never raises to the caller: `log` (and its wrappers) is a
total function of the oracle for every fault pattern; whenever the write body
throws, `log` still returns, with the failure reported as a console line
appended after the record's console output; whenever the rotation body
throws, `rotateLogFile` returns the state reached with the failure reported
to the console only. -/
theorem C9_log_io_failures_caught (o : FsOracle) (cfg : LoggerConfig)
    (fs : LogFs) (lvl msg : String) :
    (∃ fs' out, log o cfg fs lvl msg = (fs', out))
    ∧ (∀ e fs₁ msgs₁,
        writeBody o cfg.maxFileSize cfg.maxFiles fs (formatLine lvl msg)
          = ((fs₁, msgs₁), some e) →
        shouldLog lvl cfg.level = true → cfg.enableFile = true →
        log o cfg fs lvl msg
          = (fs₁, consoleLines cfg.enableConsole msg
              ++ (msgs₁ ++ [("Failed to write to log file: ") ++ e])))
    ∧ (∀ e fs₂,
        seqStep (rotateLoop o cfg.maxFiles (cfg.maxFiles - 1) fs)
          (renameLiveToArch1 o) = (fs₂, some e) →
        rotateLogFile o cfg.maxFiles fs
          = (fs₂, [("Failed to rotate log file: ") ++ e]))
    ∧ logError o cfg fs msg = log o cfg fs ("error") msg
    ∧ logWarn o cfg fs msg = log o cfg fs ("warn") msg
    ∧ logInfo o cfg fs msg = log o cfg fs ("info") msg
    ∧ logDebug o cfg fs msg = log o cfg fs ("debug") msg := by
  refine ⟨⟨_, _, rfl⟩, ?_, ?_, rfl, rfl, rfl, rfl⟩
  · intro e fs₁ msgs₁ hbody hshould hfile
    unfold log writeToFile
    rw [if_pos hshould, hfile, hbody]
    rfl
  · intro e fs₂ hstep
    unfold rotateLogFile
    rw [hstep]

/-- C9 witness: with an oracle whose append always throws, `log` still
returns normally, reporting the failure on the console after the record's
own console line, and the file is left unchanged. -/
theorem C9_log_io_failures_caught_witness :
    log (⟨false, true, false, false⟩ : FsOracle)
        (⟨("info"), true, true, 100, 5⟩ : LoggerConfig)
        (⟨none, []⟩ : LogFs) ("info") ("boom")
      = ((⟨none, []⟩ : LogFs),
         [("boom"), ("Failed to write to log file: append error")]) :=
  (C9_log_io_failures_caught ⟨false, true, false, false⟩
      ⟨("info"), true, true, 100, 5⟩ ⟨none, []⟩ ("info") ("boom")).2.1
    ("append error") ⟨none, []⟩ [] (by decide) (by decide) rfl

end OpenCSAT
